import Mathlib

/-!
# Shallow embedding of the sequelize-project entity-graph core

This file embeds, in Lean, the relational entity-graph manager of the
repository: the Sequelize models (`User`, `Profile`, `Post`, `Tag`,
`PostTag`), the repository layer (`BaseRepository`, `UserRepository`,
`PostRepository`) and the service layer (`UserService`, `PostService`).

Modelling conventions:
* The database is a record of lists of rows, one list per table, plus the
  auto-increment counters of the tables that the embedded operations insert
  into.  Rows are appended on creation, so list order is creation order
  (`createdAt` ascending); an `ORDER BY createdAt DESC` clause is `reverse`.
* Every `async` function is a pure function from the database state (and
  its arguments) to a new database state and an `Except` result; a thrown
  JavaScript error is the `Except.error` branch.
* A Sequelize managed transaction with `commit`/`rollback` becomes
  `withTransaction`: the state produced by the body is kept on success and
  discarded (rolled back) on error.
* JavaScript default parameters (`page = 1`, `limit = 10`) become `Option`
  arguments resolved with `Option.getD`.
* Timestamps are not tracked as data; only their ordering role (above) is.
-/

namespace SequelizeProject

/-- Error values observable by a caller of the service layer.
`jsError` is a plain `throw new Error(msg)` in a service;
`validationError` is a Sequelize field-validation failure
(the spec's `ValidationError`); `uniqueConstraintError` is a Sequelize
unique-constraint violation (the spec's `ConflictError`). -/
inductive Err where
  | jsError (msg : String)
  | validationError (msg : String)
  | uniqueConstraintError (msg : String)
deriving DecidableEq, Repr

/-- A row of the `Users` table (model `User`): unique `username` (3-30
chars), unique `email` (email format). -/
structure User where
  id : Nat
  username : String
  email : String
deriving DecidableEq, Repr

/-- A row of the `Profiles` table (model `Profile`): `userId` unique
(one-to-one with `User`), required names (2-50 chars), optional bio
(at most 1000 chars) and date of birth. -/
structure Profile where
  id : Nat
  userId : Nat
  firstName : String
  lastName : String
  bio : Option String
  dateOfBirth : Option Nat
deriving DecidableEq, Repr

/-- A row of the `Posts` table (model `Post`): title 5-200 chars, content
10-5000 chars, required `userId`, `isPublished` flag. -/
structure Post where
  id : Nat
  title : String
  content : String
  userId : Nat
  isPublished : Bool
deriving DecidableEq, Repr

/-- A row of the `Tags` table (model `Tag`): unique name (2-50 chars),
optional description (at most 500 chars). -/
structure Tag where
  id : Nat
  name : String
  description : Option String
deriving DecidableEq, Repr

/-- A row of the `PostTags` junction table (model `PostTag`); the
`unique_post_tag` index makes the pair `(postId, tagId)` unique. -/
structure PostTag where
  postId : Nat
  tagId : Nat
deriving DecidableEq, Repr

/-- The database state: one list of rows per table, in creation order,
plus the auto-increment counters used by the embedded create operations. -/
structure DB where
  users : List User
  profiles : List Profile
  posts : List Post
  tags : List Tag
  postTags : List PostTag
  nextUserId : Nat
  nextProfileId : Nat
deriving DecidableEq, Repr

/-- Sequelize managed transaction: the body receives the current state and
either commits (its new state is kept) or throws (the transaction is rolled
back, so the pre-transaction state is kept and the error is re-thrown). -/
def withTransaction (db : DB) (body : DB → Except Err (DB × α)) : DB × Except Err α :=
  match body db with
  | .ok (db', a) => (db', .ok a)
  | .error e => (db, .error e)

/-! ## Pagination (`BaseRepository.paginate`, `base.repository.js`) -/

/-- The query options `paginate` hands to `findAndCountAll`:
`{ ...options, limit, offset, distinct: true }`. -/
structure Query where
  limit : Int
  offset : Int
  distinct : Bool
deriving DecidableEq, Repr

/-- The query built by `BaseRepository.paginate`:
`offset = (page - 1) * limit`, `distinct: true`.  There is no guard on
`page` or `limit`; whatever offset the arithmetic yields is forwarded. -/
def paginateQuery (page limit : Int) : Query :=
  { limit := limit, offset := (page - 1) * limit, distinct := true }

/-- Model of Sequelize `findAndCountAll` on the list of matching base rows,
for a well-formed (non-negative) limit and offset: `rows` is the window of
at most `limit` rows starting at `offset`, and `count` is the number of
matching base rows (`distinct: true` counts base entities, not join
fan-out). -/
def findAndCountAll (rows : List α) (q : Query) : List α × Nat :=
  ((rows.drop q.offset.toNat).take q.limit.toNat, rows.length)

/-- The `pagination` object returned by `BaseRepository.paginate`:
`totalPages = Math.ceil(count / limit)` (real division, then ceiling). -/
structure PaginationInfo where
  total : Nat
  page : Int
  limit : Int
  totalPages : Int
deriving DecidableEq, Repr

/-- The value returned by `BaseRepository.paginate`. -/
structure Paginated (α : Type) where
  data : List α
  pagination : PaginationInfo
deriving DecidableEq, Repr

/-- `BaseRepository.paginate(page = 1, limit = 10, options = {})` over the
list of base rows matching the options.  The `Option` arguments model the
JavaScript default parameters: an omitted argument is `none` and silently
defaults, it is never rejected. -/
def BaseRepository.paginate (pageArg limitArg : Option Int) (rows : List α) : Paginated α :=
  let page := pageArg.getD 1
  let limit := limitArg.getD 10
  let result := findAndCountAll rows (paginateQuery page limit)
  { data := result.1,
    pagination :=
      { total := result.2, page := page, limit := limit,
        totalPages := ⌈(result.2 : ℚ) / (limit : ℚ)⌉ } }

/-! ## Field validators (the `validate` blocks of the models) -/

/-- The Sequelize `len: [lo, hi]` validator: string length between `lo` and
`hi` inclusive. -/
def lenBetween (lo hi : Nat) (s : String) : Bool :=
  lo ≤ s.length && s.length ≤ hi

/-- Abstraction of the third-party `isEmail` format validator backing the
`User.email` field: exactly one `@`, neither at the start nor at the end.
The full format rules live in the validation library; no property below
depends on more than this. -/
def isEmail (s : String) : Bool :=
  let cs := s.toList
  (cs.count '@' == 1) && (cs.head? != some '@') && (cs.getLast? != some '@')

/-! ## User rows (`models/user.js`, `UserRepository`, `UserService`) -/

/-- The attributes accepted by `User.create`. -/
structure UserAttrs where
  username : String
  email : String
deriving DecidableEq, Repr

/-- Field validation of the `User` model: username 3-30 characters, email in
email format (the first violated rule is reported). -/
def User.validateAttrs (a : UserAttrs) : Option Err :=
  if !lenBetween 3 30 a.username then
    some (.validationError "Username must be between 3 and 30 characters")
  else if !isEmail a.email then
    some (.validationError "Please provide a valid email address")
  else none

/-- `userRepository.create(userData)`: run the field validators, then
insert; an existing row with the same username or email violates the unique
constraints of the `Users` table. -/
def User.createRow (db : DB) (a : UserAttrs) : Except Err (DB × User) :=
  match User.validateAttrs a with
  | some e => .error e
  | none =>
    if db.users.any (fun u => u.username == a.username) then
      .error (.uniqueConstraintError "Username already exists")
    else if db.users.any (fun u => u.email == a.email) then
      .error (.uniqueConstraintError "Email already exists")
    else
      let u : User := { id := db.nextUserId, username := a.username, email := a.email }
      .ok ({ db with users := db.users ++ [u], nextUserId := db.nextUserId + 1 }, u)

/-- The (partial, in the JavaScript-object sense) attributes handed to the
profile create/update path of the user service; an absent key is `none`.
A value typed `Option Nat` for `dateOfBirth` always passes the `isDate`
validator, so no check on it appears below. -/
structure ProfileAttrs where
  firstName : Option String := none
  lastName : Option String := none
  bio : Option String := none
  dateOfBirth : Option Nat := none
deriving DecidableEq, Repr

/-- Validation of the fields present in a profile patch (`len` validators of
`models/profile.js`; the first violated rule is reported). -/
def Profile.validatePatch (a : ProfileAttrs) : Option Err :=
  if a.firstName.any (fun fn => !lenBetween 2 50 fn) then
    some (.validationError "First name must be between 2 and 50 characters")
  else if a.lastName.any (fun ln => !lenBetween 2 50 ln) then
    some (.validationError "Last name must be between 2 and 50 characters")
  else if a.bio.any (fun b => !lenBetween 0 1000 b) then
    some (.validationError "Bio cannot exceed 1000 characters")
  else none

/-- Validation performed by `Profile.create`: the names are `allowNull:
false`, so they must be present, and every present field must satisfy its
`len` validator. -/
def Profile.validateCreateAttrs (a : ProfileAttrs) : Option Err :=
  if a.firstName.isNone then some (.validationError "Profile.firstName cannot be null")
  else if a.lastName.isNone then some (.validationError "Profile.lastName cannot be null")
  else Profile.validatePatch a

/-- `Profile.create({ ...profileData, userId })`: validate, then insert; an
existing profile of the same user violates the unique constraint on
`Profiles.userId` (the one-to-one side).  Validation guarantees the `getD`
defaults below are never used. -/
def Profile.createRow (db : DB) (userId : Nat) (a : ProfileAttrs) : Except Err (DB × Profile) :=
  match Profile.validateCreateAttrs a with
  | some e => .error e
  | none =>
    if db.profiles.any (fun pr => pr.userId == userId) then
      .error (.uniqueConstraintError "userId must be unique")
    else
      let pr : Profile := { id := db.nextProfileId, userId := userId,
                            firstName := a.firstName.getD "", lastName := a.lastName.getD "",
                            bio := a.bio, dateOfBirth := a.dateOfBirth }
      .ok ({ db with profiles := db.profiles ++ [pr], nextProfileId := db.nextProfileId + 1 }, pr)

/-- Apply a profile patch to a row (`profile.update(profileData)`): a
present field overwrites, an absent one is untouched. -/
def Profile.applyAttrs (pr : Profile) (a : ProfileAttrs) : Profile :=
  { pr with firstName := a.firstName.getD pr.firstName,
            lastName := a.lastName.getD pr.lastName,
            bio := (a.bio.map some).getD pr.bio,
            dateOfBirth := (a.dateOfBirth.map some).getD pr.dateOfBirth }

/-- `profile.update(profileData, { transaction })`: validate the fields
being changed, then overwrite the row `prId` in place. -/
def Profile.updateInDB (db : DB) (prId : Nat) (a : ProfileAttrs) : Except Err DB :=
  match Profile.validatePatch a with
  | some e => .error e
  | none =>
    .ok { db with profiles :=
            db.profiles.map (fun pr => if pr.id == prId then Profile.applyAttrs pr a else pr) }

/-- A partial update of the `User` row fields; an absent key is `none`. -/
structure UserPatch where
  username : Option String := none
  email : Option String := none
deriving DecidableEq, Repr

/-- `Object.keys(userData).length > 0` is false exactly on the empty patch. -/
def UserPatch.isEmpty (p : UserPatch) : Bool :=
  p.username.isNone && p.email.isNone

/-- Validation of the fields present in a user patch. -/
def User.validatePatch (p : UserPatch) : Option Err :=
  if p.username.any (fun s => !lenBetween 3 30 s) then
    some (.validationError "Username must be between 3 and 30 characters")
  else if p.email.any (fun s => !isEmail s) then
    some (.validationError "Please provide a valid email address")
  else none

/-- Apply a user patch to a row. -/
def User.applyPatch (u : User) (p : UserPatch) : User :=
  { u with username := p.username.getD u.username, email := p.email.getD u.email }

/-- `BaseRepository.update(id, data)` on the `Users` table: `findById`, then
`instance.update(data)`, which re-validates the changed fields and the
unique constraints they affect; returns `none` (not an error) when the id
is absent. -/
def User.updateRow (db : DB) (id : Nat) (p : UserPatch) : Except Err (DB × Option User) :=
  match db.users.find? (fun u => u.id == id) with
  | none => .ok (db, none)
  | some u =>
    match User.validatePatch p with
    | some e => .error e
    | none =>
      if p.username.any (fun s => db.users.any (fun v => v.id != id && v.username == s)) then
        .error (.uniqueConstraintError "Username already exists")
      else if p.email.any (fun s => db.users.any (fun v => v.id != id && v.email == s)) then
        .error (.uniqueConstraintError "Email already exists")
      else
        let u' := User.applyPatch u p
        .ok ({ db with users := db.users.map (fun v => if v.id == id then u' else v) }, some u')

/-- The full projection of a user (`UserRepository.findUserById`): the row
with its nested profile and posts. -/
structure UserFull where
  id : Nat
  username : String
  email : String
  profile : Option Profile
  posts : List Post
deriving DecidableEq, Repr

/-- `UserRepository.findUserById(id)`. -/
def findUserById (db : DB) (id : Nat) : Option UserFull :=
  (db.users.find? (fun u => u.id == id)).map (fun u =>
    { id := u.id, username := u.username, email := u.email,
      profile := db.profiles.find? (fun pr => pr.userId == id),
      posts := db.posts.filter (fun p => p.userId == id) })

/-- `UserService.createUser(userData, profileData)`: logical pre-check that
no user has the given username or email, then one transaction creating the
user and, when profile attributes were supplied, the linked profile; the
full projection is re-read after the commit. -/
def UserService.createUser (db : DB) (userData : UserAttrs) (profileData : Option ProfileAttrs) :
    DB × Except Err (Option UserFull) :=
  match db.users.find? (fun u => u.username == userData.username || u.email == userData.email) with
  | some _ => (db, .error (.jsError "Username or email already exists"))
  | none =>
    let step := withTransaction db (fun db0 =>
      match User.createRow db0 userData with
      | .error e => .error e
      | .ok (db1, user) =>
        match profileData with
        | none => .ok (db1, user.id)
        | some pd =>
          match Profile.createRow db1 user.id pd with
          | .error e => .error e
          | .ok (db2, _) => .ok (db2, user.id))
    (step.1, step.2.map (fun uid => findUserById step.1 uid))

/-- The first awaited step of the `updateUser` transaction:
`if (Object.keys(userData).length > 0) await userRepository.update(...)` —
the patch is applied only when non-empty. -/
def userStep (db : DB) (id : Nat) (userData : UserPatch) : Except Err DB :=
  if !(UserPatch.isEmpty userData) then
    (User.updateRow db id userData).map (fun r => r.1)
  else pure db

/-- The second awaited step of the `updateUser` transaction: when profile
attributes were supplied, update the account's existing profile if one
exists, otherwise create one linked to the account. -/
def profileStep (db1 : DB) (id : Nat) (profileData : Option ProfileAttrs) : Except Err DB :=
  match profileData with
  | none => pure db1
  | some pd =>
    match db1.profiles.find? (fun pr => pr.userId == id) with
    | some pr => Profile.updateInDB db1 pr.id pd
    | none => (Profile.createRow db1 id pd).map (fun r => r.1)

/-- `UserService.updateUser(id, userData, profileData)`: `NotFound` when the
user is absent; otherwise one transaction that applies the user patch when
it is non-empty and, when profile attributes were supplied, updates the
existing profile or creates one; the full projection is re-read after the
commit. -/
def UserService.updateUser (db : DB) (id : Nat) (userData : UserPatch)
    (profileData : Option ProfileAttrs) : DB × Except Err (Option UserFull) :=
  match db.users.find? (fun u => u.id == id) with
  | none => (db, .error (.jsError "User not found"))
  | some _ =>
    let step := withTransaction db (fun db0 =>
      match userStep db0 id userData with
      | .error e => .error e
      | .ok db1 =>
        match profileStep db1 id profileData with
        | .error e => .error e
        | .ok db2 => .ok (db2, ()))
    (step.1, step.2.map (fun _ => findUserById step.1 id))

/-- The delete cascades declared on the models: deleting a user deletes its
profile rows and its post rows (`onDelete: 'CASCADE'` in `User.associate`),
and deleting a post deletes its junction rows (`onDelete: 'CASCADE'` in
`PostTag.associate`). -/
def User.destroyCascade (db : DB) (id : Nat) : DB :=
  let deletedPostIds := (db.posts.filter (fun p => p.userId == id)).map Post.id
  { db with
    users := db.users.filter (fun u => u.id != id),
    profiles := db.profiles.filter (fun pr => pr.userId != id),
    posts := db.posts.filter (fun p => p.userId != id),
    postTags := db.postTags.filter (fun pt => !(deletedPostIds.contains pt.postId)) }

/-- `BaseRepository.delete(id)` on the `Users` table: `false` when the id is
absent, otherwise `destroy` with the declared cascades. -/
def User.deleteRow (db : DB) (id : Nat) : DB × Bool :=
  match db.users.find? (fun u => u.id == id) with
  | none => (db, false)
  | some _ => (User.destroyCascade db id, true)

/-- `UserService.deleteUser(id)`. -/
def UserService.deleteUser (db : DB) (id : Nat) : DB × Except Err String :=
  let r := User.deleteRow db id
  if r.2 then (r.1, .ok "User deleted successfully")
  else (r.1, .error (.jsError "User not found"))

/-- The light projection used by `UserService.getUserPosts` (`id`, `title`,
`isPublished`; the timestamp column is not tracked). -/
structure PostListItem where
  id : Nat
  title : String
  isPublished : Bool
deriving DecidableEq, Repr

/-- `UserService.getUserPosts(userId)`: `NotFound` when the user is absent,
otherwise the user's posts in the light projection. -/
def UserService.getUserPosts (db : DB) (userId : Nat) : Except Err (List PostListItem) :=
  match db.users.find? (fun u => u.id == userId) with
  | none => .error (.jsError "User not found")
  | some _ =>
    .ok ((db.posts.filter (fun p => p.userId == userId)).map
      (fun p => { id := p.id, title := p.title, isPublished := p.isPublished }))

/-! ## Posts and tags (`PostRepository`, `PostService`) -/

/-- The author as nested in the full post projection. -/
structure UserWithProfile where
  id : Nat
  username : String
  email : String
  profile : Option Profile
deriving DecidableEq, Repr

/-- The full projection of a post (`PostRepository.findPostById`): author
(with the author's profile) and tags included. -/
structure PostFull where
  id : Nat
  title : String
  content : String
  userId : Nat
  isPublished : Bool
  author : Option UserWithProfile
  tags : List Tag
deriving DecidableEq, Repr

/-- `PostRepository.findPostById(id)`. -/
def findPostById (db : DB) (id : Nat) : Option PostFull :=
  (db.posts.find? (fun p => p.id == id)).map (fun p =>
    { id := p.id, title := p.title, content := p.content, userId := p.userId,
      isPublished := p.isPublished,
      author := (db.users.find? (fun u => u.id == p.userId)).map (fun u =>
        { id := u.id, username := u.username, email := u.email,
          profile := db.profiles.find? (fun pr => pr.userId == u.id) }),
      tags := db.tags.filter (fun t =>
        db.postTags.any (fun pt => pt.postId == id && pt.tagId == t.id)) })

/-- Model of Sequelize `post.setTags(tagIds)`: replace the post's
associations with exactly `tagIds` — junction rows of this post whose tag
is not in `tagIds` are deleted, rows whose tag is in `tagIds` are kept
untouched, and a row is inserted for each member of `tagIds` not already
associated (the service below only reaches this call with a
duplicate-free `tagIds`). -/
def Post.setTags (db : DB) (postId : Nat) (tagIds : List Nat) : DB :=
  let existing := (db.postTags.filter (fun pt => pt.postId == postId)).map PostTag.tagId
  let kept := db.postTags.filter (fun pt => pt.postId != postId || tagIds.contains pt.tagId)
  let added := (tagIds.filter (fun tid => !(existing.contains tid))).map
    (fun tid => ({ postId := postId, tagId := tid } : PostTag))
  { db with postTags := kept ++ added }

/-- `PostRepository.addTagsToPost(postId, tagIds)`: `findById`, `setTags`,
then re-read the full projection; returns `none` when the post is absent. -/
def PostRepository.addTagsToPost (db : DB) (postId : Nat) (tagIds : List Nat) :
    DB × Option PostFull :=
  match db.posts.find? (fun p => p.id == postId) with
  | none => (db, none)
  | some _ =>
    let db' := Post.setTags db postId tagIds
    (db', findPostById db' postId)

/-- `PostService.addTagsToPost(postId, tagIds)`: `NotFound` when the post is
absent; the matched tag rows (`Tag.findAll({ where: { id: tagIds } })`) are
counted against the length of the input list, and a mismatch aborts before
the associations are touched. -/
def PostService.addTagsToPost (db : DB) (postId : Nat) (tagIds : List Nat) :
    DB × Except Err (Option PostFull) :=
  match db.posts.find? (fun p => p.id == postId) with
  | none => (db, .error (.jsError "Post not found"))
  | some _ =>
    let matchedTags := db.tags.filter (fun t => tagIds.contains t.id)
    if matchedTags.length ≠ tagIds.length then
      (db, .error (.jsError "One or more tags not found"))
    else
      let r := PostRepository.addTagsToPost db postId tagIds
      (r.1, .ok r.2)

/-- The tag ids currently associated with a post: the junction rows of the
post, in storage order. -/
def DB.tagSetOf (db : DB) (postId : Nat) : List Nat :=
  (db.postTags.filter (fun pt => pt.postId == postId)).map PostTag.tagId

/-- The light projection served by `findPublishedPosts` (`id`, `title`, and
the author summary; the timestamp column is not tracked). -/
structure PostLight where
  id : Nat
  title : String
  authorId : Option Nat
  authorUsername : Option String
deriving DecidableEq, Repr

/-- `PostRepository.findPublishedPosts(page = 1, limit = 10)`: paginate the
published posts, newest first, in the light projection. -/
def PostRepository.findPublishedPosts (db : DB) (pageArg limitArg : Option Int) :
    Paginated PostLight :=
  BaseRepository.paginate pageArg limitArg
    (((db.posts.filter Post.isPublished).reverse).map (fun p =>
      { id := p.id, title := p.title,
        authorId := (db.users.find? (fun u => u.id == p.userId)).map User.id,
        authorUsername := (db.users.find? (fun u => u.id == p.userId)).map User.username }))

/-- `PostService.getPublishedPosts(page = 1, limit = 10)`: resolves its own
defaults, then delegates; it never throws. -/
def PostService.getPublishedPosts (db : DB) (pageArg limitArg : Option Int) :
    Except Err (Paginated PostLight) :=
  .ok (PostRepository.findPublishedPosts db (some (pageArg.getD 1)) (some (limitArg.getD 10)))

/-! ## Concrete stores used to instantiate the theorems below -/

/-- The empty database. -/
def emptyDB : DB :=
  { users := [], profiles := [], posts := [], tags := [], postTags := [],
    nextUserId := 1, nextProfileId := 1 }

/-- A store with one author and 25 published posts. -/
def dbPub : DB :=
  { users := [{ id := 1, username := "alice", email := "alice@example.com" }],
    profiles := [],
    posts := (List.range 25).map (fun i =>
      { id := i + 1, title := "Hello world", content := "Some long content",
        userId := 1, isPublished := true }),
    tags := [], postTags := [], nextUserId := 2, nextProfileId := 1 }

/-- A store with one post, two tags and one existing association. -/
def dbTags : DB :=
  { users := [{ id := 1, username := "alice", email := "alice@example.com" }],
    profiles := [],
    posts := [{ id := 1, title := "Hello world", content := "Some long content",
                userId := 1, isPublished := true }],
    tags := [{ id := 1, name := "news", description := none },
             { id := 2, name := "tech", description := none }],
    postTags := [{ postId := 1, tagId := 2 }],
    nextUserId := 2, nextProfileId := 1 }

/-- A store with one user owning a profile and two posts, one tagged. -/
def dbCascade : DB :=
  { users := [{ id := 1, username := "alice", email := "alice@example.com" },
              { id := 2, username := "bobby", email := "bobby@example.com" }],
    profiles := [{ id := 1, userId := 1, firstName := "Alice", lastName := "Smith",
                   bio := none, dateOfBirth := none }],
    posts := [{ id := 1, title := "Hello world", content := "Some long content",
                userId := 1, isPublished := true },
              { id := 2, title := "Other title", content := "More long content",
                userId := 1, isPublished := false },
              { id := 3, title := "Bobby s post", content := "Even more content",
                userId := 2, isPublished := true }],
    tags := [{ id := 1, name := "news", description := none }],
    postTags := [{ postId := 1, tagId := 1 }, { postId := 3, tagId := 1 }],
    nextUserId := 3, nextProfileId := 2 }

/-! ## Helper lemmas -/

/-- `Math.ceil` of a true division of naturals agrees with the rounded-up
integer division. -/
theorem ceil_natCast_div (n k : Nat) (hk : 0 < k) :
    ⌈(n : ℚ) / (k : ℚ)⌉ = (((n + k - 1) / k : Nat) : Int) := by
  have hk0 : (0 : ℚ) < (k : ℚ) := by exact_mod_cast hk
  have hmod := Nat.div_add_mod (n + k - 1) k
  have hmodlt : (n + k - 1) % k < k := Nat.mod_lt _ hk
  have h1 : k * ((n + k - 1) / k) < n + k := by omega
  have h2 : n ≤ k * ((n + k - 1) / k) := by omega
  rw [Int.ceil_eq_iff]
  simp only [Int.cast_natCast]
  constructor
  · rw [lt_div_iff₀ hk0]
    have h1q : ((k * ((n + k - 1) / k) : Nat) : ℚ) < ((n + k : Nat) : ℚ) := by
      exact_mod_cast h1
    push_cast at h1q
    nlinarith [h1q]
  · rw [div_le_iff₀ hk0]
    have h2q : ((n : Nat) : ℚ) ≤ ((k * ((n + k - 1) / k) : Nat) : ℚ) := by
      exact_mod_cast h2
    push_cast at h2q
    nlinarith [h2q]

/-! ## C6: pagination arithmetic -/

/-- C6: for `page ≥ 1` and `pageSize > 0`, `paginate` returns the slice of
the matching rows starting at offset `(page - 1) * pageSize` of length at
most `pageSize`, `totalCount` is the count of matching base rows, and
`totalPages` is the rounded-up quotient `ceil(totalCount / pageSize)`. -/
theorem paginate_arithmetic {α : Type} (page limit : Int) (rows : List α)
    (_hp : 1 ≤ page) (hl : 0 < limit) :
    (BaseRepository.paginate (some page) (some limit) rows).data =
        (rows.drop ((page - 1) * limit).toNat).take limit.toNat ∧
    (BaseRepository.paginate (some page) (some limit) rows).data.length ≤ limit.toNat ∧
    (∀ i : Nat, i < limit.toNat →
        (BaseRepository.paginate (some page) (some limit) rows).data[i]? =
          rows[((page - 1) * limit).toNat + i]?) ∧
    (BaseRepository.paginate (some page) (some limit) rows).pagination.total = rows.length ∧
    (BaseRepository.paginate (some page) (some limit) rows).pagination.totalPages =
        ((rows.length + limit.toNat - 1) / limit.toNat : Nat) := by
  refine ⟨rfl, ?_, ?_, rfl, ?_⟩
  · exact List.length_take_le _ _
  · intro i hi
    show ((rows.drop ((page - 1) * limit).toNat).take limit.toNat)[i]? = _
    rw [List.getElem?_take, if_pos hi, List.getElem?_drop]
  · show ⌈((rows.length : ℚ)) / ((limit : Int) : ℚ)⌉ = _
    have hkn : (0 : Nat) < limit.toNat := by omega
    have hcast : ((limit.toNat : Nat) : ℚ) = ((limit : Int) : ℚ) := by
      have := Int.toNat_of_nonneg hl.le
      exact_mod_cast congrArg (fun z : Int => (z : ℚ)) this
    rw [← hcast]
    exact ceil_natCast_div rows.length limit.toNat hkn

/-- Witness for C6: over a store of 25 rows, page 1 of size 10 has exactly
10 items with `totalCount = 25` and `totalPages = 3`, and page 3 holds the
remaining 5 rows. -/
theorem paginate_arithmetic_witness :
    (BaseRepository.paginate (some 1) (some 10) (List.range 25)).data.length = 10 ∧
    (BaseRepository.paginate (some 1) (some 10) (List.range 25)).pagination.total = 25 ∧
    (BaseRepository.paginate (some 1) (some 10) (List.range 25)).pagination.totalPages = 3 ∧
    (BaseRepository.paginate (some 3) (some 10) (List.range 25)).data =
        [20, 21, 22, 23, 24] ∧
    (BaseRepository.paginate (some 3) (some 10) (List.range 25)).data.length = 5 ∧
    (BaseRepository.paginate (some 3) (some 10) (List.range 25)).pagination.totalPages = 3 := by
  have h1 := paginate_arithmetic (α := Nat) 1 10 (List.range 25) (by decide) (by decide)
  have h3 := paginate_arithmetic (α := Nat) 3 10 (List.range 25) (by decide) (by decide)
  refine ⟨?_, by decide, ?_, ?_, ?_, ?_⟩
  · rw [h1.1]; decide
  · rw [h1.2.2.2.2]; decide
  · rw [h3.1]; decide
  · rw [h3.1]; decide
  · rw [h3.2.2.2.2]; decide

/-! ## C10: no guard on non-positive page numbers -/

/-- C10: for `page ≤ 0` and `pageSize > 0`, `paginate` computes the
negative offset `(page - 1) * pageSize` and forwards it in the storage
query; there is no guard and no validation error — the result is exactly
the storage answer for that query. -/
theorem paginate_negative_page_forwarded {α : Type} (page limit : Int) (rows : List α)
    (hp : page ≤ 0) (hl : 0 < limit) :
    (paginateQuery page limit).offset = (page - 1) * limit ∧
    (paginateQuery page limit).offset < 0 ∧
    BaseRepository.paginate (some page) (some limit) rows =
      { data := (findAndCountAll rows (paginateQuery page limit)).1,
        pagination :=
          { total := (findAndCountAll rows (paginateQuery page limit)).2,
            page := page, limit := limit,
            totalPages :=
              ⌈(((findAndCountAll rows (paginateQuery page limit)).2 : ℚ)) / ((limit : Int) : ℚ)⌉ } } := by
  refine ⟨rfl, ?_, rfl⟩
  have hneg : page - 1 < 0 := by omega
  exact mul_neg_of_neg_of_pos hneg hl

/-- Witness for C10 at `page = 0`, `pageSize = 10`. -/
theorem paginate_negative_page_forwarded_witness :
    (paginateQuery 0 10).offset = -10 ∧ (paginateQuery 0 10).offset < 0 := by
  have h := paginate_negative_page_forwarded (α := Nat) 0 10 [7] (by decide) (by decide)
  exact ⟨by decide, h.2.1⟩

/-! ## C7: omitted pagination arguments -/

/-- C7 counterexample: with both pagination arguments omitted, the
published-posts operation does not fail with a `ValidationError`; it
substitutes the defaults (page 1, size 10) and returns a successful first
page of 10 items. -/
theorem publishedPosts_omitted_args_no_error :
    (PostService.getPublishedPosts dbPub none none).isOk = true ∧
    PostService.getPublishedPosts dbPub none none =
      .ok (PostRepository.findPublishedPosts dbPub (some 1) (some 10)) ∧
    (PostService.getPublishedPosts dbPub none none).toOption.map
        (fun r => r.pagination.page) = some 1 ∧
    (PostService.getPublishedPosts dbPub none none).toOption.map
        (fun r => r.data.length) = some 10 := by
  exact ⟨rfl, rfl, rfl, by decide⟩

/-- C7 (amended): when the caller omits the page number or the page size,
every paginated operation substitutes the default values `page = 1`,
`pageSize = 10` and succeeds; none of them raises a `ValidationError`. -/
theorem paginated_ops_default_omitted_args {α : Type} (db : DB) (rows : List α) :
    BaseRepository.paginate none none rows =
        BaseRepository.paginate (some 1) (some 10) rows ∧
    PostRepository.findPublishedPosts db none none =
        PostRepository.findPublishedPosts db (some 1) (some 10) ∧
    PostService.getPublishedPosts db none none =
        PostService.getPublishedPosts db (some 1) (some 10) ∧
    (PostService.getPublishedPosts db none none).isOk = true := by
  exact ⟨rfl, rfl, rfl, rfl⟩

/-! ## Helper lemmas for the tag-assignment operation -/

/-- The tag rows matched by `Tag.findAll({ where: { id: tagIds } })` are as
many as the distinct ids of `tagIds` that resolve, i.e. `tagIds.dedup` when
all of them do. -/
theorem length_filter_tags (tags : List Tag) (ids : List Nat)
    (hnd : (tags.map Tag.id).Nodup)
    (hres : ∀ tid ∈ ids, ∃ t ∈ tags, t.id = tid) :
    (tags.filter (fun t => ids.contains t.id)).length = ids.dedup.length := by
  have hmapfilter : (tags.filter (fun t => ids.contains t.id)).map Tag.id
      = (tags.map Tag.id).filter (fun i => ids.contains i) :=
    (@List.filter_map Tag Nat (fun i => ids.contains i) Tag.id tags).symm
  have hmem : ∀ x, x ∈ (tags.map Tag.id).filter (fun i => ids.contains i) ↔ x ∈ ids.dedup := by
    intro x
    simp only [List.mem_filter, List.mem_dedup, List.mem_map, List.elem_iff]
    constructor
    · rintro ⟨-, hx⟩
      exact hx
    · intro hx
      obtain ⟨t, ht, hid⟩ := hres x hx
      exact ⟨⟨t, ht, hid⟩, hx⟩
  have hperm := (List.perm_ext_iff_of_nodup (hnd.filter _) (List.nodup_dedup ids)).mpr hmem
  calc (tags.filter (fun t => ids.contains t.id)).length
      = ((tags.filter (fun t => ids.contains t.id)).map Tag.id).length :=
        (List.length_map _ _).symm
    _ = ((tags.map Tag.id).filter (fun i => ids.contains i)).length := by rw [hmapfilter]
    _ = ids.dedup.length := hperm.length_eq

/-- A list with a duplicate has strictly fewer distinct members than
members. -/
theorem dedup_length_lt {ids : List Nat} (h : ¬ ids.Nodup) :
    ids.dedup.length < ids.length := by
  rcases Nat.lt_or_ge ids.dedup.length ids.length with hlt | hge
  · exact hlt
  · exfalso
    have hsub := List.dedup_sublist ids
    have hle := hsub.length_le
    have heq := hsub.eq_of_length (Nat.le_antisymm hle hge)
    exact h (heq ▸ List.nodup_dedup ids)

/-- When some id of `ids` resolves to no tag row, strictly fewer tag rows
match than `ids` has members. -/
theorem length_filter_tags_lt (tags : List Tag) (ids : List Nat)
    (hnd : (tags.map Tag.id).Nodup)
    (hmiss : ∃ tid ∈ ids, ∀ t ∈ tags, t.id ≠ tid) :
    (tags.filter (fun t => ids.contains t.id)).length < ids.length := by
  obtain ⟨m, hm, hnores⟩ := hmiss
  have hmapfilter : (tags.filter (fun t => ids.contains t.id)).map Tag.id
      = (tags.map Tag.id).filter (fun i => ids.contains i) :=
    (@List.filter_map Tag Nat (fun i => ids.contains i) Tag.id tags).symm
  set L := (tags.map Tag.id).filter (fun i => ids.contains i) with hL
  have hLnd : L.Nodup := hnd.filter _
  have hmL : m ∉ L := by
    intro hmem
    obtain ⟨hmem', -⟩ := List.mem_filter.mp hmem
    obtain ⟨t, ht, hid⟩ := List.mem_map.mp hmem'
    exact hnores t ht hid
  have hcons : (m :: L).Nodup := List.nodup_cons.mpr ⟨hmL, hLnd⟩
  have hsubset : (m :: L) ⊆ ids.dedup := by
    intro x hx
    rcases List.mem_cons.mp hx with rfl | hxL
    · exact List.mem_dedup.mpr hm
    · obtain ⟨-, hxids⟩ := List.mem_filter.mp hxL
      exact List.mem_dedup.mpr (List.elem_iff.mp hxids)
  have hlen1 : (m :: L).length ≤ ids.dedup.length :=
    (hcons.subperm hsubset).length_le
  rw [List.length_cons] at hlen1
  have hlen2 : ids.dedup.length ≤ ids.length := (List.dedup_sublist ids).length_le
  have : (tags.filter (fun t => ids.contains t.id)).length = L.length := by
    rw [← List.length_map _ Tag.id, hmapfilter]
  omega

/-- Reduction of `PostService.addTagsToPost` on the success path. -/
theorem addTagsToPost_success (db : DB) (postId : Nat) (tagIds : List Nat)
    (post : Post) (hpost : db.posts.find? (fun q => q.id == postId) = some post)
    (hlen : (db.tags.filter (fun t => tagIds.contains t.id)).length = tagIds.length) :
    PostService.addTagsToPost db postId tagIds =
      (Post.setTags db postId tagIds,
       .ok (findPostById (Post.setTags db postId tagIds) postId)) := by
  unfold PostService.addTagsToPost PostRepository.addTagsToPost
  rw [hpost]
  have hlen' : (db.tags.filter (fun t => decide (t.id ∈ tagIds))).length = tagIds.length := by
    simpa using hlen
  simp [hlen']

/-- Reduction of `PostService.addTagsToPost` when the matched-count check
fails. -/
theorem addTagsToPost_mismatch (db : DB) (postId : Nat) (tagIds : List Nat)
    (post : Post) (hpost : db.posts.find? (fun q => q.id == postId) = some post)
    (hlen : (db.tags.filter (fun t => tagIds.contains t.id)).length ≠ tagIds.length) :
    PostService.addTagsToPost db postId tagIds =
      (db, .error (.jsError "One or more tags not found")) := by
  unfold PostService.addTagsToPost
  rw [hpost]
  have hlen' : ¬ (db.tags.filter (fun t => decide (t.id ∈ tagIds))).length = tagIds.length := by
    simpa using hlen
  simp [hlen']

/-- Reduction of `PostService.addTagsToPost` when the post is absent. -/
theorem addTagsToPost_no_post (db : DB) (postId : Nat) (tagIds : List Nat)
    (hpost : db.posts.find? (fun q => q.id == postId) = none) :
    PostService.addTagsToPost db postId tagIds =
      (db, .error (.jsError "Post not found")) := by
  unfold PostService.addTagsToPost
  rw [hpost]

/-- `setTags` leaves every other table untouched. -/
theorem setTags_users (db : DB) (p : Nat) (S : List Nat) :
    (Post.setTags db p S).users = db.users := rfl

theorem setTags_profiles (db : DB) (p : Nat) (S : List Nat) :
    (Post.setTags db p S).profiles = db.profiles := rfl

theorem setTags_posts (db : DB) (p : Nat) (S : List Nat) :
    (Post.setTags db p S).posts = db.posts := rfl

theorem setTags_tags (db : DB) (p : Nat) (S : List Nat) :
    (Post.setTags db p S).tags = db.tags := rfl

/-- The kept junction rows of the target post are exactly its old rows
whose tag survives into the new set. -/
theorem filter_post_of_kept (l : List PostTag) (p : Nat) (S : List Nat) :
    (l.filter (fun pt => pt.postId != p || S.contains pt.tagId)).filter
        (fun pt => pt.postId == p) =
      (l.filter (fun pt => pt.postId == p)).filter (fun pt => S.contains pt.tagId) := by
  rw [List.filter_filter, List.filter_filter]
  apply List.filter_congr
  intro pt _
  cases hb : pt.postId == p <;> simp [bne, hb]

/-- After `setTags`, the junction rows of the target post read back as the
old tag-set restricted to `S` followed by the genuinely new members of
`S`. -/
theorem tagSetOf_setTags (db : DB) (p : Nat) (S : List Nat) :
    DB.tagSetOf (Post.setTags db p S) p =
      (DB.tagSetOf db p).filter (fun tid => S.contains tid)
        ++ S.filter (fun tid => !((DB.tagSetOf db p).contains tid)) := by
  simp only [DB.tagSetOf, Post.setTags]
  rw [List.filter_append, List.map_append]
  congr 1
  · rw [filter_post_of_kept]
    exact (@List.filter_map PostTag Nat (fun tid => S.contains tid) PostTag.tagId
      (db.postTags.filter (fun pt => pt.postId == p))).symm
  · have hself : ((S.filter (fun tid => !((DB.tagSetOf db p).contains tid))).map
        (fun tid => ({ postId := p, tagId := tid } : PostTag))).filter
          (fun pt => pt.postId == p) =
        (S.filter (fun tid => !((DB.tagSetOf db p).contains tid))).map
          (fun tid => ({ postId := p, tagId := tid } : PostTag)) := by
      apply List.filter_eq_self.mpr
      intro pt hpt
      obtain ⟨tid, -, rfl⟩ := List.mem_map.mp hpt
      exact beq_self_eq_true p
    simp only [DB.tagSetOf] at hself
    rw [hself, List.map_map]
    exact List.map_id _

/-- After `setTags`, precisely the members of `S` are associated. -/
theorem mem_tagSetOf_setTags (db : DB) (p : Nat) (S : List Nat) (tid : Nat) :
    tid ∈ DB.tagSetOf (Post.setTags db p S) p ↔ tid ∈ S := by
  rw [tagSetOf_setTags]
  simp only [List.mem_append, List.mem_filter, List.elem_iff, Bool.not_eq_true',
    ← Bool.not_eq_true]
  constructor
  · rintro (⟨-, h⟩ | ⟨h, -⟩) <;> exact h
  · intro h
    by_cases hx : tid ∈ DB.tagSetOf db p
    · exact Or.inl ⟨hx, h⟩
    · exact Or.inr ⟨h, by simpa [List.elem_iff] using hx⟩

/-- The junction rows of every other post are untouched by `setTags`. -/
theorem setTags_other_posts (db : DB) (p : Nat) (S : List Nat) :
    (Post.setTags db p S).postTags.filter (fun pt => pt.postId != p) =
      db.postTags.filter (fun pt => pt.postId != p) := by
  simp only [Post.setTags]
  rw [List.filter_append]
  have hadded : ((S.filter (fun tid =>
      !(((db.postTags.filter (fun pt => pt.postId == p)).map PostTag.tagId).contains tid))).map
        (fun tid => ({ postId := p, tagId := tid } : PostTag))).filter
          (fun pt => pt.postId != p) = [] := by
    apply List.filter_eq_nil_iff.mpr
    intro pt hpt
    obtain ⟨tid, -, rfl⟩ := List.mem_map.mp hpt
    simp [bne]
  rw [hadded, List.append_nil, List.filter_filter]
  apply List.filter_congr
  intro pt _
  cases hb : pt.postId == p <;> simp [bne, hb]

/-- A junction row of the target post whose tag is in the new set survives
`setTags` untouched. -/
theorem setTags_keeps (db : DB) (p : Nat) (S : List Nat) (pt : PostTag)
    (hmem : pt ∈ db.postTags) (hp : pt.postId = p) (ht : pt.tagId ∈ S) :
    pt ∈ (Post.setTags db p S).postTags := by
  simp only [Post.setTags, List.mem_append]
  exact Or.inl (List.mem_filter.mpr ⟨hmem, by simp [bne, hp, List.elem_iff, ht]⟩)

/-- With a duplicate-free junction table and a duplicate-free new set,
`setTags` leaves the junction table duplicate-free. -/
theorem setTags_nodup (db : DB) (p : Nat) (S : List Nat)
    (hnd : db.postTags.Nodup) (hS : S.Nodup) :
    (Post.setTags db p S).postTags.Nodup := by
  simp only [Post.setTags]
  apply List.Nodup.append
  · exact hnd.filter _
  · apply List.Nodup.map ?_ (hS.filter _)
    intro a b hab
    exact congrArg PostTag.tagId hab
  · intro pt hpt1 hpt2
    obtain ⟨hmem, -⟩ := List.mem_filter.mp hpt1
    obtain ⟨tid, htid, rfl⟩ := List.mem_map.mp hpt2
    obtain ⟨-, hnotin⟩ := List.mem_filter.mp htid
    have : ({ postId := p, tagId := tid } : PostTag).tagId ∈
        (db.postTags.filter (fun q => q.postId == p)).map PostTag.tagId :=
      List.mem_map.mpr ⟨_, List.mem_filter.mpr ⟨hmem, beq_self_eq_true p⟩, rfl⟩
    have hnot : tid ∉ (db.postTags.filter (fun q => q.postId == p)).map PostTag.tagId := by
      simpa [List.elem_iff] using hnotin
    exact hnot this

/-- `setTags` is the identity when every row of the post is already in the
set and every member of the set is already associated. -/
theorem setTags_fixpoint (db : DB) (p : Nat) (S : List Nat)
    (h1 : ∀ pt ∈ db.postTags, pt.postId = p → pt.tagId ∈ S)
    (h2 : ∀ tid ∈ S, tid ∈ DB.tagSetOf db p) :
    Post.setTags db p S = db := by
  have hkept : db.postTags.filter (fun pt => pt.postId != p || S.contains pt.tagId) =
      db.postTags := by
    apply List.filter_eq_self.mpr
    intro pt hpt
    by_cases hb : pt.postId = p
    · simp [bne, hb, List.elem_iff, h1 pt hpt hb]
    · simp [bne, hb]
  have hadd : S.filter (fun tid =>
      !(((db.postTags.filter (fun pt => pt.postId == p)).map PostTag.tagId).contains tid)) =
      [] := by
    apply List.filter_eq_nil_iff.mpr
    intro tid htid
    have := h2 tid htid
    simp only [DB.tagSetOf] at this
    simp [List.elem_iff, this]
  simp only [Post.setTags, hkept, hadd, List.map_nil, List.append_nil]

/-! ## C2: tag-set replacement -/

/-- C2 counterexample: on `dbTags`, the duplicate list `[1, 1]` — every
member of which resolves to the existing tag 1 — does not leave post 1
associated with the set `{1}`: the operation fails with the
tags-not-found error and the association stays `[2]`. -/
theorem assignTags_duplicate_list_cex :
    (1 : Nat) ∈ dbTags.tags.map Tag.id ∧
    (PostService.addTagsToPost dbTags 1 [1, 1]).2 =
        .error (.jsError "One or more tags not found") ∧
    DB.tagSetOf (PostService.addTagsToPost dbTags 1 [1, 1]).1 1 = [2] ∧
    ¬ (1 : Nat) ∈ DB.tagSetOf (PostService.addTagsToPost dbTags 1 [1, 1]).1 1 := by
  refine ⟨by decide, rfl, by decide, by decide⟩

/-- C2 (amended: the input list must name the tag-set without duplicates,
as duplicates are rejected — see the counterexample and C9): for an
existing post and a duplicate-free `tagIds` list, every member of which
resolves to an existing tag, `assignTagsToContentItem` succeeds and leaves
the post associated with exactly the tags named by `tagIds`: prior rows
whose tag is not in the new set are gone, prior rows whose tag is in the
new set are kept untouched, rows of other posts are untouched, and no
`(postId, tagId)` pair is duplicated. -/
theorem assignTags_replaces_tag_set (db : DB) (postId : Nat) (tagIds : List Nat)
    (hpost : (db.posts.find? (fun q => q.id == postId)).isSome = true)
    (htags : (db.tags.map Tag.id).Nodup)
    (hrows : db.postTags.Nodup)
    (hids : tagIds.Nodup)
    (hres : ∀ tid ∈ tagIds, ∃ t ∈ db.tags, t.id = tid) :
    (PostService.addTagsToPost db postId tagIds).2 =
        .ok (findPostById (PostService.addTagsToPost db postId tagIds).1 postId) ∧
    (∀ tid, tid ∈ DB.tagSetOf (PostService.addTagsToPost db postId tagIds).1 postId ↔
        tid ∈ tagIds) ∧
    (PostService.addTagsToPost db postId tagIds).1.postTags.Nodup ∧
    (PostService.addTagsToPost db postId tagIds).1.postTags.filter
        (fun pt => pt.postId != postId) =
      db.postTags.filter (fun pt => pt.postId != postId) ∧
    (∀ pt ∈ db.postTags, pt.postId = postId → pt.tagId ∈ tagIds →
        pt ∈ (PostService.addTagsToPost db postId tagIds).1.postTags) := by
  obtain ⟨post, hp⟩ := Option.isSome_iff_exists.mp hpost
  have hlen : (db.tags.filter (fun t => tagIds.contains t.id)).length = tagIds.length := by
    rw [length_filter_tags db.tags tagIds htags hres, List.dedup_eq_self.mpr hids]
  have hred := addTagsToPost_success db postId tagIds post hp hlen
  rw [hred]
  refine ⟨rfl, ?_, ?_, ?_, ?_⟩
  · exact fun tid => mem_tagSetOf_setTags db postId tagIds tid
  · exact setTags_nodup db postId tagIds hrows hids
  · exact setTags_other_posts db postId tagIds
  · exact fun pt hmem hppt ht => setTags_keeps db postId tagIds pt hmem hppt ht

/-- Witness for the amended C2 on `dbTags`: assigning `[1]` to post 1
succeeds, replaces the previous association `[2]` with `[1]`, and keeps the
junction table duplicate-free. -/
theorem assignTags_replaces_tag_set_witness :
    (PostService.addTagsToPost dbTags 1 [1]).2 =
        .ok (findPostById (PostService.addTagsToPost dbTags 1 [1]).1 1) ∧
    DB.tagSetOf (PostService.addTagsToPost dbTags 1 [1]).1 1 = [1] ∧
    (PostService.addTagsToPost dbTags 1 [1]).1.postTags.Nodup := by
  have h := assignTags_replaces_tag_set dbTags 1 [1] (by decide) (by decide) (by decide)
    (by decide) (by decide)
  exact ⟨h.1, by decide, h.2.2.1⟩

/-! ## C3: idempotence of tag assignment -/

/-- C3: assigning the same duplicate-free, fully-resolving tag-id set twice
returns the very same state and value as assigning it once, and the
junction table holds no duplicate pair afterwards. -/
theorem assignTags_idempotent (db : DB) (postId : Nat) (tagIds : List Nat)
    (hpost : (db.posts.find? (fun q => q.id == postId)).isSome = true)
    (htags : (db.tags.map Tag.id).Nodup)
    (hrows : db.postTags.Nodup)
    (hids : tagIds.Nodup)
    (hres : ∀ tid ∈ tagIds, ∃ t ∈ db.tags, t.id = tid) :
    PostService.addTagsToPost (PostService.addTagsToPost db postId tagIds).1 postId tagIds =
      PostService.addTagsToPost db postId tagIds ∧
    (PostService.addTagsToPost db postId tagIds).1.postTags.Nodup := by
  obtain ⟨post, hp⟩ := Option.isSome_iff_exists.mp hpost
  have hlen : (db.tags.filter (fun t => tagIds.contains t.id)).length = tagIds.length := by
    rw [length_filter_tags db.tags tagIds htags hres, List.dedup_eq_self.mpr hids]
  have hred1 := addTagsToPost_success db postId tagIds post hp hlen
  have hstate1 : (PostService.addTagsToPost db postId tagIds).1 =
      Post.setTags db postId tagIds := by rw [hred1]
  have hp2 : (PostService.addTagsToPost db postId tagIds).1.posts.find?
      (fun q => q.id == postId) = some post := by
    rw [hstate1, setTags_posts]
    exact hp
  have hlen2 : ((PostService.addTagsToPost db postId tagIds).1.tags.filter
      (fun t => tagIds.contains t.id)).length = tagIds.length := by
    rw [hstate1, setTags_tags]
    exact hlen
  have hred2 := addTagsToPost_success (PostService.addTagsToPost db postId tagIds).1
    postId tagIds post hp2 hlen2
  have hfix : Post.setTags (PostService.addTagsToPost db postId tagIds).1 postId tagIds =
      (PostService.addTagsToPost db postId tagIds).1 := by
    apply setTags_fixpoint
    · intro pt hpt hppt
      have htid : pt.tagId ∈ DB.tagSetOf (PostService.addTagsToPost db postId tagIds).1
          postId := by
        apply List.mem_map.mpr
        refine ⟨pt, List.mem_filter.mpr ⟨hpt, ?_⟩, rfl⟩
        simpa using hppt
      rw [hstate1] at htid
      exact (mem_tagSetOf_setTags db postId tagIds pt.tagId).mp htid
    · intro tid htid
      rw [hstate1]
      exact (mem_tagSetOf_setTags db postId tagIds tid).mpr htid
  constructor
  · rw [hred2, hfix, hred1]
  · rw [hstate1]
    exact setTags_nodup db postId tagIds hrows hids

/-- Witness for C3 on `dbTags` with the set `[1, 2]`. -/
theorem assignTags_idempotent_witness :
    PostService.addTagsToPost (PostService.addTagsToPost dbTags 1 [1, 2]).1 1 [1, 2] =
      PostService.addTagsToPost dbTags 1 [1, 2] ∧
    DB.tagSetOf (PostService.addTagsToPost dbTags 1 [1, 2]).1 1 = [2, 1] := by
  have h := assignTags_idempotent dbTags 1 [1, 2] (by decide) (by decide) (by decide)
    (by decide) (by decide)
  exact ⟨h.1, by decide⟩

/-! ## C4: all-or-nothing tag resolution -/

/-- C4: when some input id resolves to no existing tag, the operation fails
(with the tags-not-found error the spec classifies as `ValidationError`,
or with `NotFound` when the post itself is absent) and the post's tag-set
is exactly what it was before the call. -/
theorem assignTags_all_or_nothing (db : DB) (postId : Nat) (tagIds : List Nat)
    (htags : (db.tags.map Tag.id).Nodup)
    (hmiss : ∃ tid ∈ tagIds, ∀ t ∈ db.tags, t.id ≠ tid) :
    ((db.posts.find? (fun q => q.id == postId)).isSome = true →
        PostService.addTagsToPost db postId tagIds =
          (db, .error (.jsError "One or more tags not found"))) ∧
    (db.posts.find? (fun q => q.id == postId) = none →
        PostService.addTagsToPost db postId tagIds =
          (db, .error (.jsError "Post not found"))) ∧
    DB.tagSetOf (PostService.addTagsToPost db postId tagIds).1 postId =
        DB.tagSetOf db postId := by
  have hne : (db.tags.filter (fun t => tagIds.contains t.id)).length ≠ tagIds.length :=
    Nat.ne_of_lt (length_filter_tags_lt db.tags tagIds htags hmiss)
  refine ⟨?_, ?_, ?_⟩
  · intro hsome
    obtain ⟨post, hp⟩ := Option.isSome_iff_exists.mp hsome
    exact addTagsToPost_mismatch db postId tagIds post hp hne
  · intro hnone
    exact addTagsToPost_no_post db postId tagIds hnone
  · cases hf : db.posts.find? (fun q => q.id == postId) with
    | none => rw [addTagsToPost_no_post db postId tagIds hf]
    | some post => rw [addTagsToPost_mismatch db postId tagIds post hf hne]

/-- Witness for C4 on `dbTags` with `[1, 3]` (tag 3 does not exist). -/
theorem assignTags_all_or_nothing_witness :
    PostService.addTagsToPost dbTags 1 [1, 3] =
      (dbTags, .error (.jsError "One or more tags not found")) ∧
    DB.tagSetOf (PostService.addTagsToPost dbTags 1 [1, 3]).1 1 = DB.tagSetOf dbTags 1 := by
  have h := assignTags_all_or_nothing dbTags 1 [1, 3] (by decide)
    ⟨3, by decide, by decide⟩
  exact ⟨h.1 (by decide), h.2.2⟩

/-! ## C9: duplicate ids in the input are rejected -/

/-- C9: a `tagIds` list that repeats an existing id fails with the
tags-not-found error even though every member resolves, because the count
of distinct matched tag rows is compared with the input length; the state,
and in particular the post's tag-set, is unchanged. -/
theorem assignTags_duplicate_ids_rejected (db : DB) (postId : Nat) (tagIds : List Nat)
    (post : Post) (hpost : db.posts.find? (fun q => q.id == postId) = some post)
    (htags : (db.tags.map Tag.id).Nodup)
    (hdup : ¬ tagIds.Nodup)
    (hres : ∀ tid ∈ tagIds, ∃ t ∈ db.tags, t.id = tid) :
    PostService.addTagsToPost db postId tagIds =
      (db, .error (.jsError "One or more tags not found")) ∧
    DB.tagSetOf (PostService.addTagsToPost db postId tagIds).1 postId =
        DB.tagSetOf db postId := by
  have hne : (db.tags.filter (fun t => tagIds.contains t.id)).length ≠ tagIds.length := by
    rw [length_filter_tags db.tags tagIds htags hres]
    exact Nat.ne_of_lt (dedup_length_lt hdup)
  have h := addTagsToPost_mismatch db postId tagIds post hpost hne
  exact ⟨h, by rw [h]⟩

/-- Witness for C9 on `dbTags` with `[1, 1]`. -/
theorem assignTags_duplicate_ids_rejected_witness :
    PostService.addTagsToPost dbTags 1 [1, 1] =
      (dbTags, .error (.jsError "One or more tags not found")) := by
  exact (assignTags_duplicate_ids_rejected dbTags 1 [1, 1]
    { id := 1, title := "Hello world", content := "Some long content",
      userId := 1, isPublished := true }
    (by decide) (by decide) (by decide) (by decide)).1

/-! ## C1: atomicity of account registration -/

/-- C1: when the pre-check and the account creation would succeed but the
profile attributes fail field validation, `registerAccount` fails as a
whole: the state is rolled back to exactly the input state, the would-be
account id reads back as not-found, and no account with the requested
username or email exists. -/
theorem registerAccount_atomic (db : DB) (ud : UserAttrs) (pd : ProfileAttrs)
    (hpre : db.users.find? (fun u => u.username == ud.username || u.email == ud.email) = none)
    (huser : User.validateAttrs ud = none)
    (hprof : Profile.validateCreateAttrs pd ≠ none)
    (hwf : ∀ u ∈ db.users, u.id < db.nextUserId) :
    (∃ e, UserService.createUser db ud (some pd) = (db, .error e)) ∧
    findUserById db db.nextUserId = none ∧
    (∀ u ∈ db.users, u.username ≠ ud.username ∧ u.email ≠ ud.email) := by
  obtain ⟨e, he⟩ := Option.ne_none_iff_exists'.mp hprof
  have hall := List.find?_eq_none.mp hpre
  have hattrs : ∀ u ∈ db.users, u.username ≠ ud.username ∧ u.email ≠ ud.email := by
    intro u hu
    have := hall u hu
    simp only [Bool.or_eq_true, beq_iff_eq, not_or] at this
    exact this
  have hanyU : db.users.any (fun u => u.username == ud.username) = false := by
    rw [← Bool.not_eq_true, List.any_eq_true]
    rintro ⟨u, hu, hbu⟩
    exact (hattrs u hu).1 (by simpa using hbu)
  have hanyE : db.users.any (fun u => u.email == ud.email) = false := by
    rw [← Bool.not_eq_true, List.any_eq_true]
    rintro ⟨u, hu, hbu⟩
    exact (hattrs u hu).2 (by simpa using hbu)
  refine ⟨⟨e, ?_⟩, ?_, hattrs⟩
  · unfold UserService.createUser
    rw [hpre]
    simp [withTransaction, User.createRow, huser, hanyU, hanyE, Profile.createRow, he,
      Except.map]
  · have hnone : db.users.find? (fun u => u.id == db.nextUserId) = none := by
      apply List.find?_eq_none.mpr
      intro u hu
      simpa using Nat.ne_of_lt (hwf u hu)
    simp [findUserById, hnone]

/-- Witness for C1: registering alice with a one-letter profile first name
on the empty store fails and leaves the store empty. -/
theorem registerAccount_atomic_witness :
    (UserService.createUser emptyDB { username := "alice", email := "alice@example.com" }
        (some { firstName := some "A", lastName := some "Smith" })).1 = emptyDB ∧
    (UserService.createUser emptyDB { username := "alice", email := "alice@example.com" }
        (some { firstName := some "A", lastName := some "Smith" })).2.isOk = false ∧
    findUserById emptyDB emptyDB.nextUserId = none := by
  have h := registerAccount_atomic emptyDB
    { username := "alice", email := "alice@example.com" }
    { firstName := some "A", lastName := some "Smith" }
    rfl (by decide) (by decide) (by decide)
  obtain ⟨e, he⟩ := h.1
  exact ⟨by rw [he], by rw [he]; rfl, h.2.1⟩

/-! ## C5: cascading account removal -/

/-- C5: removing an existing account succeeds, a subsequent content-item
listing for that account reports not-found, and no profile row, no post
row of the account, and no junction row of those posts remains. -/
theorem removeAccount_cascades (db : DB) (id : Nat) (u : User)
    (hu : db.users.find? (fun w => w.id == id) = some u) :
    (UserService.deleteUser db id).2 = .ok "User deleted successfully" ∧
    UserService.getUserPosts (UserService.deleteUser db id).1 id =
        .error (.jsError "User not found") ∧
    (∀ pr ∈ (UserService.deleteUser db id).1.profiles, pr.userId ≠ id) ∧
    (∀ q ∈ (UserService.deleteUser db id).1.posts, q.userId ≠ id) ∧
    (∀ pt ∈ (UserService.deleteUser db id).1.postTags, ∀ q ∈ db.posts,
        q.userId = id → pt.postId ≠ q.id) := by
  have hdel : UserService.deleteUser db id =
      (User.destroyCascade db id, .ok "User deleted successfully") := by
    unfold UserService.deleteUser User.deleteRow
    rw [hu]
    rfl
  rw [hdel]
  refine ⟨rfl, ?_, ?_, ?_, ?_⟩
  · have hnone : (User.destroyCascade db id).users.find? (fun w => w.id == id) = none := by
      apply List.find?_eq_none.mpr
      intro w hw
      simp only [User.destroyCascade] at hw
      obtain ⟨-, hne⟩ := List.mem_filter.mp hw
      simpa [bne_iff_ne] using hne
    unfold UserService.getUserPosts
    rw [hnone]
  · intro pr hpr
    simp only [User.destroyCascade] at hpr
    obtain ⟨-, hne⟩ := List.mem_filter.mp hpr
    simpa [bne_iff_ne] using hne
  · intro q hq
    simp only [User.destroyCascade] at hq
    obtain ⟨-, hne⟩ := List.mem_filter.mp hq
    simpa [bne_iff_ne] using hne
  · intro pt hpt q hq hqid
    simp only [User.destroyCascade] at hpt
    obtain ⟨-, hnotin⟩ := List.mem_filter.mp hpt
    have hnotin' : pt.postId ∉ (db.posts.filter (fun p => p.userId == id)).map Post.id := by
      simpa [List.elem_iff] using hnotin
    intro heq
    apply hnotin'
    rw [heq]
    exact List.mem_map.mpr ⟨q, List.mem_filter.mpr ⟨hq, by simpa using hqid⟩, rfl⟩

/-- Witness for C5 on `dbCascade`: removing account 1 deletes its profile,
both of its posts, and the junction row of its tagged post, while the
other account's data survives. -/
theorem removeAccount_cascades_witness :
    (UserService.deleteUser dbCascade 1).2 = .ok "User deleted successfully" ∧
    UserService.getUserPosts (UserService.deleteUser dbCascade 1).1 1 =
        .error (.jsError "User not found") ∧
    (UserService.deleteUser dbCascade 1).1.profiles = [] ∧
    (UserService.deleteUser dbCascade 1).1.posts.length = 1 ∧
    (UserService.deleteUser dbCascade 1).1.postTags = [{ postId := 3, tagId := 1 }] := by
  have h := removeAccount_cascades dbCascade 1
    { id := 1, username := "alice", email := "alice@example.com" } rfl
  exact ⟨h.1, h.2.1, by decide, by decide, by decide⟩

/-! ## Helper lemmas for `UserService.updateUser` -/

/-- The user-update step of the `modifyAccount` transaction keeps every
other table, and on success its user table is the patched one. -/
theorem userStep_ok (db : DB) (id : Nat) (up : UserPatch) (u : User) (db1 : DB)
    (hfind : db.users.find? (fun w => w.id == id) = some u)
    (h : userStep db id up = Except.ok db1) :
    db1.profiles = db.profiles ∧ db1.nextProfileId = db.nextProfileId ∧
    db1.users = (if UserPatch.isEmpty up then db.users
                 else db.users.map (fun w => if w.id == id then User.applyPatch u up else w)) := by
  unfold userStep at h
  cases hc : UserPatch.isEmpty up with
  | true =>
    rw [hc] at h
    simp only [Bool.not_true, Bool.false_eq_true, if_false, pure, Except.pure,
      Except.ok.injEq] at h
    subst h
    simp
  | false =>
    rw [hc] at h
    simp only [Bool.not_false, if_true] at h
    unfold User.updateRow at h
    simp only [hfind] at h
    cases hv : User.validatePatch up with
    | some e => simp [hv, Except.map] at h
    | none =>
      simp only [hv] at h
      by_cases hU : (up.username.any fun s =>
          db.users.any fun v => v.id != id && v.username == s) = true
      · rw [if_pos hU] at h
        simp [Except.map] at h
      · rw [if_neg hU] at h
        by_cases hE : (up.email.any fun s =>
            db.users.any fun v => v.id != id && v.email == s) = true
        · rw [if_pos hE] at h
          simp [Except.map] at h
        · rw [if_neg hE] at h
          simp only [Except.map, Except.ok.injEq] at h
          subst h
          simp

/-- The profile step of the `modifyAccount` transaction never touches the
user table. -/
theorem profileStep_ok_users (db1 : DB) (id : Nat) (pd : Option ProfileAttrs) (db2 : DB)
    (h : profileStep db1 id pd = Except.ok db2) :
    db2.users = db1.users := by
  unfold profileStep at h
  cases pd with
  | none =>
    simp only [pure, Except.pure, Except.ok.injEq] at h
    subst h
    rfl
  | some pa =>
    cases hf : db1.profiles.find? (fun pr => pr.userId == id) with
    | some pr =>
      simp only [hf] at h
      unfold Profile.updateInDB at h
      cases hv : Profile.validatePatch pa with
      | some e => simp [hv] at h
      | none =>
        simp only [hv, Except.ok.injEq] at h
        subst h
        rfl
    | none =>
      simp only [hf] at h
      unfold Profile.createRow at h
      cases hv : Profile.validateCreateAttrs pa with
      | some e => simp [hv, Except.map] at h
      | none =>
        simp only [hv] at h
        by_cases ha : (db1.profiles.any fun pr => pr.userId == id) = true
        · rw [if_pos ha] at h; simp [Except.map] at h
        · rw [if_neg ha] at h
          simp only [Except.map, Except.ok.injEq] at h
          subst h
          rfl

/-- Reduction of `UserService.updateUser` to its two transaction steps when
the account exists. -/
theorem updateUser_shape (db : DB) (id : Nat) (up : UserPatch) (pd : Option ProfileAttrs)
    (u : User) (hfind : db.users.find? (fun w => w.id == id) = some u) :
    UserService.updateUser db id up pd =
      match userStep db id up with
      | .error e => (db, .error e)
      | .ok db1 =>
        match profileStep db1 id pd with
        | .error e => (db, .error e)
        | .ok db2 => (db2, .ok (findUserById db2 id)) := by
  unfold UserService.updateUser
  rw [hfind]
  simp only [withTransaction]
  cases hE1 : userStep db id up with
  | error e => rfl
  | ok db1 =>
    simp only []
    cases hE2 : profileStep db1 id pd with
    | error e => rfl
    | ok db2 => rfl

/-! ## C8: modifyAccount is an upsert on the one-to-one side -/

/-- C8: `modifyAccount` fails with `NotFound` when the account is absent;
every failure inside the transaction leaves the state exactly as it was;
on success with profile attributes supplied it updates the existing
profile in place when one exists and appends a freshly-created profile
linked to the account when none does; and on success the account row
carries the patch when one was given. -/
theorem modifyAccount_upsert (db : DB) (id : Nat) (up : UserPatch) (pd : Option ProfileAttrs) :
    (db.users.find? (fun w => w.id == id) = none →
        UserService.updateUser db id up pd = (db, .error (.jsError "User not found"))) ∧
    (∀ e, (UserService.updateUser db id up pd).2 = .error e →
        (UserService.updateUser db id up pd).1 = db) ∧
    (∀ v pa pr, pd = some pa → (UserService.updateUser db id up pd).2 = .ok v →
        db.profiles.find? (fun q => q.userId == id) = some pr →
        (UserService.updateUser db id up pd).1.profiles =
          db.profiles.map (fun q => if q.id == pr.id then Profile.applyAttrs q pa else q)) ∧
    (∀ v pa, pd = some pa → (UserService.updateUser db id up pd).2 = .ok v →
        db.profiles.find? (fun q => q.userId == id) = none →
        (UserService.updateUser db id up pd).1.profiles =
          db.profiles ++ [{ id := db.nextProfileId, userId := id,
                            firstName := pa.firstName.getD "", lastName := pa.lastName.getD "",
                            bio := pa.bio, dateOfBirth := pa.dateOfBirth }]) ∧
    (∀ v, (UserService.updateUser db id up pd).2 = .ok v →
        ∃ u, db.users.find? (fun w => w.id == id) = some u ∧
          (UserService.updateUser db id up pd).1.users =
            (if UserPatch.isEmpty up then db.users
             else db.users.map (fun w => if w.id == id then User.applyPatch u up else w))) := by
  cases hfind : db.users.find? (fun w => w.id == id) with
  | none =>
    have hred : UserService.updateUser db id up pd =
        (db, .error (.jsError "User not found")) := by
      unfold UserService.updateUser
      rw [hfind]
    refine ⟨fun _ => hred, ?_, ?_, ?_, ?_⟩
    · intro e _; rw [hred]
    · intro v pa pr _ hok _; rw [hred] at hok; simp at hok
    · intro v pa _ hok _; rw [hred] at hok; simp at hok
    · intro v hok; rw [hred] at hok; simp at hok
  | some u =>
    have hshape := updateUser_shape db id up pd u hfind
    cases hE1 : userStep db id up with
    | error e1 =>
      rw [hE1] at hshape
      refine ⟨?_, ?_, ?_, ?_, ?_⟩
      · intro h; simp at h
      · intro e _; rw [hshape]
      · intro v pa pr _ hok _; rw [hshape] at hok; simp at hok
      · intro v pa _ hok _; rw [hshape] at hok; simp at hok
      · intro v hok; rw [hshape] at hok; simp at hok
    | ok db1 =>
      rw [hE1] at hshape
      simp only [] at hshape
      obtain ⟨hprof1, hnext1, husers1⟩ := userStep_ok db id up u db1 hfind hE1
      cases hE2 : profileStep db1 id pd with
      | error e2 =>
        rw [hE2] at hshape
        refine ⟨?_, ?_, ?_, ?_, ?_⟩
        · intro h; simp at h
        · intro e _; rw [hshape]
        · intro v pa pr _ hok _; rw [hshape] at hok; simp at hok
        · intro v pa _ hok _; rw [hshape] at hok; simp at hok
        · intro v hok; rw [hshape] at hok; simp at hok
      | ok db2 =>
        rw [hE2] at hshape
        have husers2 : db2.users = db1.users := profileStep_ok_users db1 id pd db2 hE2
        refine ⟨?_, ?_, ?_, ?_, ?_⟩
        · intro h; simp at h
        · intro e he; rw [hshape] at he; simp at he
        · intro v pa pr hpd _ hpr
          subst hpd
          unfold profileStep at hE2
          simp only [] at hE2
          rw [hprof1, hpr] at hE2
          simp only [] at hE2
          unfold Profile.updateInDB at hE2
          cases hv : Profile.validatePatch pa with
          | some e => simp [hv] at hE2
          | none =>
            simp only [hv, Except.ok.injEq] at hE2
            subst hE2
            rw [hshape]
            show db1.profiles.map _ = _
            rw [hprof1]
        · intro v pa hpd _ hprnone
          subst hpd
          unfold profileStep at hE2
          simp only [] at hE2
          rw [hprof1, hprnone] at hE2
          simp only [] at hE2
          unfold Profile.createRow at hE2
          cases hv : Profile.validateCreateAttrs pa with
          | some e => simp [hv, Except.map] at hE2
          | none =>
            simp only [hv] at hE2
            have hany : (db1.profiles.any fun q => q.userId == id) = false := by
              rw [hprof1, ← Bool.not_eq_true, List.any_eq_true]
              rintro ⟨q, hq, hbq⟩
              exact (List.find?_eq_none.mp hprnone q hq) hbq
            rw [hany] at hE2
            simp only [Bool.false_eq_true, if_false, Except.map, Except.ok.injEq] at hE2
            subst hE2
            rw [hshape]
            show db1.profiles ++ _ = _
            rw [hprof1, hnext1]
        · intro v _
          refine ⟨u, rfl, ?_⟩
          rw [hshape]
          show db2.users = _
          rw [husers2, husers1]

/-- Witness for C8 on `dbCascade`: an absent id fails with not-found and no
change; updating account 1 (which has a profile) with a bio patch rewrites
that profile in place; updating account 2 (which has none) with full name
attributes appends a freshly created profile linked to it. -/
theorem modifyAccount_upsert_witness :
    UserService.updateUser dbCascade 9 {} none =
        (dbCascade, .error (.jsError "User not found")) ∧
    (UserService.updateUser dbCascade 1 {} (some { bio := some "hi there" })).1.profiles =
        [{ id := 1, userId := 1, firstName := "Alice", lastName := "Smith",
           bio := some "hi there", dateOfBirth := none }] ∧
    (UserService.updateUser dbCascade 2 {}
        (some { firstName := some "Robert", lastName := some "Jones" })).1.profiles =
      dbCascade.profiles ++
        [{ id := 2, userId := 2, firstName := "Robert", lastName := "Jones",
           bio := none, dateOfBirth := none }] := by
  refine ⟨(modifyAccount_upsert dbCascade 9 {} none).1 rfl, ?_, ?_⟩
  · have h2 := (modifyAccount_upsert dbCascade 1 {} (some { bio := some "hi there" })).2.2.1
      ((UserService.updateUser dbCascade 1 {} (some { bio := some "hi there" })).2.toOption.getD
        none)
      { bio := some "hi there" }
      { id := 1, userId := 1, firstName := "Alice", lastName := "Smith",
        bio := none, dateOfBirth := none }
      rfl rfl rfl
    exact h2.trans (by decide)
  · have h3 := (modifyAccount_upsert dbCascade 2 {}
        (some { firstName := some "Robert", lastName := some "Jones" })).2.2.2.1
      ((UserService.updateUser dbCascade 2 {}
          (some { firstName := some "Robert", lastName := some "Jones" })).2.toOption.getD none)
      { firstName := some "Robert", lastName := some "Jones" }
      rfl rfl rfl
    exact h3.trans (by decide)

end SequelizeProject
